import Mathlib

/-!
Verification of the `pydemic_ui.scheduler` module (`src/pydemic_ui/scheduler.py`).

The scheduler keeps a queue `self.tasks` of 4-tuples
`(time_to_start, self._id, task_to_run, frequency_to_repeat)`; `schedule`
appends a tuple and rebuilds the queue as `deque(sorted(self.tasks))`, and
`main_loop` repeatedly peeks the head, compares its time against the clock,
pops it when due, re-inserts recurring tasks and invokes the action under a
`try/except`.

Times are unix timestamps; we embed them as `Int` (the code only adds
integer numbers of seconds to them and compares them).  Actions are
embedded by their identifying name (`__name__`), with their runtime
behaviour (return or raise) supplied externally as a function from names to
an optional exception.  Python's `sorted` is a stable sort on the tuples;
since the `_id` components are pairwise distinct, comparison never reaches
the third tuple component, so sorting the tuples coincides with a stable
sort by the key `(time, id)`, which we embed with `List.insertionSort`
(also stable).
-/

namespace PydemicScheduler

/-- One entry of `self.tasks`: the tuple
`(time_to_start, self._id, task_to_run, frequency_to_repeat)` from
`Scheduler.schedule` (scheduler.py line 130).  The callable is represented
by its `__name__`. -/
structure Task where
  time : Int
  id : Nat
  action : String
  freq : Option String
deriving Repr, DecidableEq

/-- Non-strict lexicographic order on the sort key `(time, id)` of a task
tuple, as used by Python's `sorted` in `Scheduler.schedule`
(scheduler.py line 131); with distinct ids the remaining tuple components
are never compared. -/
def taskLE (a b : Task) : Prop :=
  a.time < b.time ∨ (a.time = b.time ∧ a.id ≤ b.id)

/-- Strict lexicographic order on the sort key `(time, id)`. -/
def taskLT (a b : Task) : Prop :=
  a.time < b.time ∨ (a.time = b.time ∧ a.id < b.id)

instance : DecidableRel taskLE := by
  intro a b
  unfold taskLE
  infer_instance

instance : DecidableRel taskLT := by
  intro a b
  unfold taskLT
  infer_instance

instance : IsTotal Task taskLE := by
  constructor
  intro a b
  unfold taskLE
  rcases lt_trichotomy a.time b.time with h | h | h
  · exact Or.inl (Or.inl h)
  · rcases Nat.le_total a.id b.id with h2 | h2
    · exact Or.inl (Or.inr ⟨h, h2⟩)
    · exact Or.inr (Or.inr ⟨h.symm, h2⟩)
  · exact Or.inr (Or.inl h)

instance : IsTrans Task taskLE := by
  constructor
  intro a b c hab hbc
  unfold taskLE at hab hbc ⊢
  rcases hab with h1 | ⟨h1, h1'⟩
  · rcases hbc with h2 | ⟨h2, _⟩
    · exact Or.inl (h1.trans h2)
    · exact Or.inl (h2 ▸ h1)
  · rcases hbc with h2 | ⟨h2, h2'⟩
    · exact Or.inl (h1 ▸ h2)
    · exact Or.inr ⟨h1.trans h2, h1'.trans h2'⟩

/-- The scheduler state (`Scheduler.__init__`, scheduler.py lines 16-25):
the task queue, the id counter `self._id`, the injected clock's `__name__`
(the default clock is `time.time`, whose `__name__` is `"time"`), the loop
counter `self._clock_tick`, the `self._running` flag, and whether
`self.thread` has been assigned by `start()` (a fresh instance has no
`thread` attribute, so `stop()` on it raises `AttributeError`). -/
structure Scheduler where
  tasks : List Task
  lastId : Nat
  clockName : String
  clockTick : Int
  running : Bool
  hasThread : Bool
deriving Repr, DecidableEq

/-- A freshly constructed `Scheduler()` (scheduler.py lines 16-25). -/
def Scheduler.init : Scheduler :=
  { tasks := [], lastId := 0, clockName := "time", clockTick := 0,
    running := false, hasThread := false }

/-- `Scheduler.schedule` (scheduler.py lines 120-131), restricted to
already-numeric time values: increment `self._id`, append the tuple, and
rebuild the queue as `deque(sorted(self.tasks))`. -/
def Scheduler.schedule (s : Scheduler) (action : String) (time : Int)
    (freq : Option String) : Scheduler :=
  { s with
    lastId := s.lastId + 1,
    tasks := List.insertionSort taskLE
      (s.tasks ++ [⟨time, s.lastId + 1, action, freq⟩]) }

/-- Fold a list of `(action, time, frequency)` triples through
`Scheduler.schedule`, i.e. a whole sequence of `schedule` calls. -/
def runSchedules (calls : List (String × Int × Option String))
    (s : Scheduler) : Scheduler :=
  calls.foldl (fun st c => st.schedule c.1 c.2.1 c.2.2) s

/-- Invariant maintained by `schedule`: every queued id is at most the
value of the `self._id` counter, the queued ids are pairwise distinct, and
the queue is sorted by `(time, id)`. -/
def QueueInv (s : Scheduler) : Prop :=
  (∀ t ∈ s.tasks, t.id ≤ s.lastId) ∧
  (s.tasks.map Task.id).Nodup ∧
  List.Pairwise taskLE s.tasks

theorem queueInv_init : QueueInv Scheduler.init := by
  refine ⟨?_, ?_, ?_⟩ <;> simp [Scheduler.init]

theorem queueInv_schedule (s : Scheduler) (a : String) (t : Int)
    (f : Option String) (h : QueueInv s) : QueueInv (s.schedule a t f) := by
  obtain ⟨hbd, hnd, _⟩ := h
  have hperm : List.Perm
      (List.insertionSort taskLE (s.tasks ++ [⟨t, s.lastId + 1, a, f⟩]))
      (s.tasks ++ [⟨t, s.lastId + 1, a, f⟩]) :=
    List.perm_insertionSort taskLE _
  refine ⟨?_, ?_, ?_⟩
  · intro x hx
    have hx' := hperm.mem_iff.mp hx
    rcases List.mem_append.mp hx' with hx2 | hx2
    · exact Nat.le_succ_of_le (hbd x hx2)
    · simp only [List.mem_singleton] at hx2
      subst hx2
      exact Nat.le_refl _
  · have hperm2 := hperm.map Task.id
    refine hperm2.nodup_iff.mpr ?_
    rw [List.map_append, List.nodup_append]
    refine ⟨hnd, List.nodup_singleton _, ?_⟩
    intro x hx hx1
    rw [List.mem_map] at hx
    obtain ⟨tk, htk, rfl⟩ := hx
    simp only [List.map_cons, List.map_nil, List.mem_cons,
      List.not_mem_nil, or_false] at hx1
    have := hbd tk htk
    omega
  · exact List.sorted_insertionSort taskLE _

theorem queueInv_runSchedules (calls : List (String × Int × Option String))
    (s : Scheduler) (h : QueueInv s) : QueueInv (runSchedules calls s) := by
  induction calls generalizing s with
  | nil => exact h
  | cons c cs ih =>
    exact ih _ (queueInv_schedule s c.1 c.2.1 c.2.2 h)

theorem pairwise_lt_of_sorted_nodup (l : List Task)
    (hs : List.Pairwise taskLE l) (hnd : (l.map Task.id).Nodup) :
    List.Pairwise taskLT l := by
  have hnd' : List.Pairwise (fun a b : Task => a.id ≠ b.id) l :=
    (List.pairwise_map).mp hnd
  have hand := hs.and hnd'
  refine hand.imp ?_
  intro a b hab
  obtain ⟨hle, hne⟩ := hab
  rcases hle with h1 | ⟨h1, h1'⟩
  · exact Or.inl h1
  · exact Or.inr ⟨h1, Nat.lt_of_le_of_ne h1' hne⟩

/-- C1.  For every sequence of `schedule(action_i, t_i, recurrence_i)`
calls on a fresh `Scheduler`, the resulting task queue is strictly sorted
ascending by the pair `(execute_at, sequence_id)` (ids being pairwise
distinct, ties in `execute_at` resolve to the earlier insertion, which got
the smaller id); consequently the head of the queue is strictly below
every other entry in this order.  Since every prefix of a call sequence is
itself a call sequence, this holds after each call. -/
theorem schedule_queue_sorted (calls : List (String × Int × Option String)) :
    List.Pairwise taskLT (runSchedules calls Scheduler.init).tasks ∧
    (∀ h rest, (runSchedules calls Scheduler.init).tasks = h :: rest →
      ∀ t ∈ rest, taskLT h t) := by
  have hinv := queueInv_runSchedules calls Scheduler.init queueInv_init
  obtain ⟨_, hnd, hs⟩ := hinv
  have hlt := pairwise_lt_of_sorted_nodup _ hs hnd
  refine ⟨hlt, ?_⟩
  intro h rest heq t ht
  rw [heq] at hlt
  exact (List.pairwise_cons.mp hlt).1 t ht

theorem schedule_queue_sorted_witness :
    List.Pairwise taskLT
      (runSchedules [("a", 5, none), ("b", 3, none), ("c", 5, none)]
        Scheduler.init).tasks ∧
    taskLT ⟨3, 2, "b", none⟩ ⟨5, 1, "a", none⟩ := by
  have h := schedule_queue_sorted [("a", 5, none), ("b", 3, none), ("c", 5, none)]
  refine ⟨h.1, ?_⟩
  have h2 := h.2 ⟨3, 2, "b", none⟩ [⟨5, 1, "a", none⟩, ⟨5, 3, "c", none⟩]
    (by decide) ⟨5, 1, "a", none⟩ (by decide)
  exact h2

/-!
Calendar arithmetic.  `Scheduler.__schedule_monthly` (scheduler.py lines
162-174) converts the fired occurrence's unix time to a UTC date string
with `unix_time_to_string` (which calls `datetime.utcfromtimestamp`),
parses it back and reads the `month` field; it then adds
`month_days * 24 * 60 * 60` seconds where `month_days` is a constant per
month number (30 for April/June/September/November, 28 for February, 31
otherwise).  We embed the UTC field extraction with the standard
days-to-civil-date conversion. -/

/-- Convert a count of days since 1970-01-01 to the proleptic Gregorian
`(year, month, day)`, as `datetime.utcfromtimestamp` does for the date
part.  Valid for all days of the supported `datetime` range. -/
def civilFromDays (z : Int) : Int × Nat × Nat :=
  let a := (z + 719468).toNat
  let era := a / 146097
  let doe := a % 146097
  let yoe := (doe - doe / 1460 + doe / 36524 - doe / 146096) / 365
  let doy := doe - (365 * yoe + yoe / 4 - yoe / 100)
  let mp := (5 * doy + 2) / 153
  let d := doy - (153 * mp + 2) / 5 + 1
  let m := if mp < 10 then mp + 3 else mp - 9
  let y : Int := (yoe : Int) + (era : Int) * 400 + (if m ≤ 2 then 1 else 0)
  (y, m, d)

/-- The UTC month (1..12) of a unix timestamp, i.e. the `month` field read
by `Scheduler.__schedule_monthly` via
`date_string_to_datetime(unix_time_to_string(time_to_start)).month`. -/
def monthOfUnix (t : Int) : Nat :=
  (civilFromDays (Int.fdiv t 86400)).2.1

/-- The UTC day-of-month (1..31) of a unix timestamp. -/
def dayOfUnix (t : Int) : Nat :=
  (civilFromDays (Int.fdiv t 86400)).2.2

/-- The UTC time-of-day of a unix timestamp, in seconds since midnight. -/
def timeOfDayOfUnix (t : Int) : Int :=
  Int.emod t 86400

/-- The per-month day count of `Scheduler.__schedule_monthly`
(scheduler.py lines 167-172): 30 for April/June/September/November, 28
for February (in every year), 31 otherwise. -/
def monthDays (month : Nat) : Nat :=
  if month = 4 ∨ month = 6 ∨ month = 9 ∨ month = 11 then 30
  else if month = 2 then 28
  else 31

/-- The next `execute_at` computed by `Scheduler.__schedule_monthly`
(scheduler.py line 174): `time_to_start + month_days * 24 * 60 * 60`. -/
def nextMonthlyTime (t : Int) : Int :=
  t + (monthDays (monthOfUnix t) : Int) * (24 * 60 * 60)

/-- `Scheduler.__schedule_daily` (scheduler.py lines 146-148). -/
def Scheduler.scheduleDailyNext (s : Scheduler) (action : String)
    (time : Int) : Scheduler :=
  s.schedule action (time + 24 * 60 * 60) (some "daily")

/-- `Scheduler.__schedule_weekly` (scheduler.py lines 154-156). -/
def Scheduler.scheduleWeeklyNext (s : Scheduler) (action : String)
    (time : Int) : Scheduler :=
  s.schedule action (time + 7 * 24 * 60 * 60) (some "weekly")

/-- `Scheduler.__schedule_monthly` (scheduler.py lines 162-174). -/
def Scheduler.scheduleMonthlyNext (s : Scheduler) (action : String)
    (time : Int) : Scheduler :=
  s.schedule action (nextMonthlyTime time) (some "monthly")

/-- C2, counterexample.  A monthly task anchored at 2021-01-31 00:00:00 UTC
(unix 1612051200, a day-31 anchor whose following month is shorter) is
rescheduled by `__schedule_monthly` to `1612051200 + 31 * 86400 =
1614729600`, which is 2021-03-03 — not 1614470400 (2021-02-28, the last
valid day of February that the claim requires).  The claim's "same
day-of-month (or the nearest valid day) one calendar month later" is
therefore false of the code. -/
theorem monthly_day31_counterexample :
    nextMonthlyTime 1612051200 = 1614729600 ∧
    monthOfUnix 1612051200 = 1 ∧ dayOfUnix 1612051200 = 31 ∧
    monthOfUnix 1614729600 = 3 ∧ dayOfUnix 1614729600 = 3 ∧
    nextMonthlyTime 1612051200 ≠ 1614470400 ∧
    monthOfUnix 1614470400 = 2 ∧ dayOfUnix 1614470400 = 28 := by
  refine ⟨by decide, by decide, by decide, by decide, by decide, ?_, by decide, by decide⟩
  decide

/-- C2, amended.  The next occurrence of a monthly task is computed by
adding a fixed number of days determined by the fired occurrence's UTC
month — `month_days * 86400` seconds with `month_days = 30` for
April/June/September/November, `28` for February in every year, and `31`
otherwise.  When the anchor's day-of-month also exists in the following
month and no leap day intervenes this preserves the day-of-month and
time-of-day (e.g. anchored 2020-03-15 13:30:03, the next six occurrences
fall on the 15th of April through September at 13:30:03); but a day-31
anchor before a shorter month overshoots into the month after (Jan 31 →
Mar 3), rather than landing on the last valid day of the shorter month. -/
theorem monthly_amended :
    (∀ t : Int, nextMonthlyTime t = t + (monthDays (monthOfUnix t) : Int) * 86400) ∧
    (monthOfUnix 1584279003 = 3 ∧ dayOfUnix 1584279003 = 15 ∧
      timeOfDayOfUnix 1584279003 = 48603) ∧
    ((List.range 6).map
        (fun k => (monthOfUnix (nextMonthlyTime^[k + 1] 1584279003),
          dayOfUnix (nextMonthlyTime^[k + 1] 1584279003),
          timeOfDayOfUnix (nextMonthlyTime^[k + 1] 1584279003))) =
      [(4, 15, 48603), (5, 15, 48603), (6, 15, 48603),
        (7, 15, 48603), (8, 15, 48603), (9, 15, 48603)]) ∧
    (monthOfUnix (nextMonthlyTime 1612051200) = 3 ∧
      dayOfUnix (nextMonthlyTime 1612051200) = 3) := by
  refine ⟨?_, by decide, by decide, by decide⟩
  intro t
  unfold nextMonthlyTime
  norm_num

/-!
The run loop.  `Scheduler.main_loop` (scheduler.py lines 73-118) is an
iteration over mutable state; we embed one pass of the `while` body as a
state-transformer `loopIter`, taking the value returned by this pass's
clock call as an argument, and the whole loop as `runLoop`, recursing on a
step count and a stream of clock readings.  An action raising is embedded
by a `behavior` map from action names to an optional exception; the
`try/except Exception` block of lines 112-118 becomes `invokeGuarded`,
which turns a raise into the logged message of lines 115-118. -/

/-- What one pass of the `while True` body did: `break` because
`self._running` is false (line 81-82), `sleep()` on an empty queue (lines
84-86), or run to the invocation of `task_to_run()` (line 113) — which
invokes the popped action (`some name`) or, when the head was not yet due,
the `sleep` function (`none`, line 97). -/
inductive IterOutcome where
  | stopped
  | sleptEmpty
  | ran (invoked : Option String)
deriving Repr, DecidableEq

/-- The value `clock` computed in `main_loop` lines 91-94: for an injected
clock whose `__name__` is not `"time"`, the clock reading plus
`self._clock_tick`; for the default wall clock (named `"time"`), the
reading alone. -/
def Scheduler.nowOf (s : Scheduler) (raw : Int) : Int :=
  if s.clockName ≠ "time" then raw + s.clockTick else raw

/-- The `frequency_to_repeat` dispatch of `main_loop` lines 101-108: a
popped `"daily"`/`"weekly"`/`"monthly"` task is re-scheduled from its own
`execute_at`; any other tag (including `None`) inserts nothing. -/
def Scheduler.reschedule (s : Scheduler) (action : String) (time : Int)
    (freq : Option String) : Scheduler :=
  if freq = some "daily" then s.scheduleDailyNext action time
  else if freq = some "weekly" then s.scheduleWeeklyNext action time
  else if freq = some "monthly" then s.scheduleMonthlyNext action time
  else s

/-- One pass of the `while True` body of `main_loop` (scheduler.py lines
80-113), up to and including the choice of what to invoke: check
`self._running`, check for an empty queue, otherwise peek the head,
compare its time with the clock, pop and re-insert a due recurring task,
and increment `self._clock_tick`.  The queue update is completed before
`task_to_run()` is invoked (the invocation, line 113, happens after the
`with self._lock` block closes), so the returned state does not depend on
whether the action raises. -/
def Scheduler.loopIter (s : Scheduler) (raw : Int) : Scheduler × IterOutcome :=
  if s.running then
    match s.tasks with
    | [] => (s, IterOutcome.sleptEmpty)
    | h :: rest =>
      if h.time > s.nowOf raw then
        ({ s with clockTick := s.clockTick + 1 }, IterOutcome.ran none)
      else
        let s1 : Scheduler := { s with tasks := rest }
        let s2 := s1.reschedule h.action h.time h.freq
        ({ s2 with clockTick := s2.clockTick + 1 },
          IterOutcome.ran (some h.action))
  else (s, IterOutcome.stopped)

/-- An exception raised by an action: its `type(ex)` rendering and its
message. -/
structure ExnInfo where
  type : String
  msg : String
deriving Repr, DecidableEq

/-- The `try/except Exception` around `task_to_run()` (scheduler.py lines
112-118): invoking an action either returns normally (no log output) or
raises, in which case the error is logged with the action's `__name__` and
the exception details, and execution continues. -/
def invokeGuarded (behavior : String → Option ExnInfo) (name : String) :
    List String :=
  match behavior name with
  | none => []
  | some ex =>
    ["error running task " ++ name ++ ":\n" ++ "   " ++ ex.type ++ ": " ++ ex.msg]

/-- `main_loop`'s `while True`, unrolled for `n` passes (or fewer if the
loop `break`s): returns the final state, the names of the actions invoked
in order, and the log lines emitted.  `clocks k` is the value returned by
the clock call of the `k`-th remaining pass. -/
def runLoop (behavior : String → Option ExnInfo) (clocks : Nat → Int) :
    Nat → Scheduler → Scheduler × List String × List String
  | 0, s => (s, [], [])
  | n + 1, s =>
    match s.loopIter (clocks 0) with
    | (s', IterOutcome.stopped) => (s', [], [])
    | (s', IterOutcome.sleptEmpty) =>
      runLoop behavior (fun k => clocks (k + 1)) n s'
    | (s', IterOutcome.ran none) =>
      runLoop behavior (fun k => clocks (k + 1)) n s'
    | (s', IterOutcome.ran (some name)) =>
      let lg := invokeGuarded behavior name
      let r := runLoop behavior (fun k => clocks (k + 1)) n s'
      (r.1, name :: r.2.1, lg ++ r.2.2)

/-- The state part of one loop pass under a frozen injected clock that
returns `raw` on every call. -/
def stepFrozen (raw : Int) (s : Scheduler) : Scheduler :=
  (s.loopIter raw).1

/-- The seconds added to a fired occurrence's `execute_at` by the
re-scheduling branch for each recognized recurrence tag. -/
def nextDelta (f : String) (t : Int) : Int :=
  if f = "daily" then 86400
  else if f = "weekly" then 604800
  else (monthDays (monthOfUnix t) : Int) * 86400

/-- C3.  When the head of the queue is due and carries a recognized
recurrence tag, the loop pass pops it and inserts exactly one new entry
with the same action and the same recurrence, whose `execute_at` is the
fired occurrence's `execute_at` plus 86400 seconds (daily), 604800 seconds
(weekly), or the month-length increment (monthly): the new queue is a
permutation of the old tail plus that single new entry.  The insertion is
part of the state computed by `loopIter` before the invocation outcome is
acted on — `runLoop` invokes (and catches exceptions from) the action only
on the already-updated state — so it happens even if the action raises.
If the tail holds no other instance of the task, the new queue holds
exactly one. -/
theorem recurring_reinserted_before_invoke (s : Scheduler) (raw : Int)
    (h : Task) (rest : List Task) (f : String)
    (hrun : s.running = true) (hq : s.tasks = h :: rest)
    (hf : h.freq = some f)
    (hval : f = "daily" ∨ f = "weekly" ∨ f = "monthly")
    (hdue : ¬ h.time > s.nowOf raw) :
    (s.loopIter raw).2 = IterOutcome.ran (some h.action) ∧
    List.Perm (s.loopIter raw).1.tasks
      (rest ++ [⟨h.time + nextDelta f h.time, s.lastId + 1, h.action, some f⟩]) ∧
    (∀ p : Task → Bool,
      p ⟨h.time + nextDelta f h.time, s.lastId + 1, h.action, some f⟩ = true →
      rest.countP p = 0 →
      (s.loopIter raw).1.tasks.countP p = 1) := by
  have hred : s.loopIter raw =
      ({ (({ s with tasks := rest } : Scheduler).reschedule h.action h.time h.freq) with
          clockTick :=
            (({ s with tasks := rest } : Scheduler).reschedule h.action h.time h.freq).clockTick + 1 },
        IterOutcome.ran (some h.action)) := by
    unfold Scheduler.loopIter
    rw [hrun, hq]
    simp only [if_true, if_neg hdue]
  have hperm : List.Perm (s.loopIter raw).1.tasks
      (rest ++ [⟨h.time + nextDelta f h.time, s.lastId + 1, h.action, some f⟩]) := by
    rw [hred]
    rcases hval with rfl | rfl | rfl
    · simp only [Scheduler.reschedule, hf, if_pos rfl]
      unfold Scheduler.scheduleDailyNext Scheduler.schedule nextDelta
      simp only [if_pos rfl]
      norm_num
      exact List.perm_insertionSort taskLE _
    · simp only [Scheduler.reschedule, hf]
      norm_num
      unfold Scheduler.scheduleWeeklyNext Scheduler.schedule nextDelta
      norm_num
      exact List.perm_insertionSort taskLE _
    · simp only [Scheduler.reschedule, hf]
      norm_num
      unfold Scheduler.scheduleMonthlyNext Scheduler.schedule nextMonthlyTime nextDelta
      norm_num
      exact List.perm_insertionSort taskLE _
  refine ⟨by rw [hred], hperm, ?_⟩
  intro p hp hrest
  rw [hperm.countP_eq, List.countP_append, hrest, List.countP_cons, List.countP_nil, hp]
  rfl

/-- A scheduler holding a single due daily task, used to instantiate the
C3 theorem. -/
def dailySched : Scheduler :=
  { tasks := [⟨0, 1, "refresh", some "daily"⟩], lastId := 1,
    clockName := "clock", clockTick := 0, running := true, hasThread := true }

theorem recurring_reinserted_witness :
    (dailySched.loopIter 0).2 = IterOutcome.ran (some "refresh") ∧
    List.Perm (dailySched.loopIter 0).1.tasks
      [⟨86400, 2, "refresh", some "daily"⟩] ∧
    (dailySched.loopIter 0).1.tasks.countP
      (fun t => t.freq == some "daily") = 1 := by
  have h := recurring_reinserted_before_invoke dailySched 0
    ⟨0, 1, "refresh", some "daily"⟩ [] "daily" rfl rfl rfl
    (Or.inl rfl) (by decide)
  exact ⟨h.1, h.2.1, h.2.2 (fun t => t.freq == some "daily") (by decide) rfl⟩

theorem runLoop_behavior_independent
    (behavior behavior' : String → Option ExnInfo) (n : Nat)
    (clocks : Nat → Int) (s : Scheduler) :
    (runLoop behavior clocks n s).1 = (runLoop behavior' clocks n s).1 ∧
    (runLoop behavior clocks n s).2.1 = (runLoop behavior' clocks n s).2.1 := by
  induction n generalizing clocks s with
  | zero => exact ⟨rfl, rfl⟩
  | succ n ih =>
    rcases hlt : s.loopIter (clocks 0) with ⟨s', out⟩
    cases out with
    | stopped => simp [runLoop, hlt]
    | sleptEmpty =>
      simp only [runLoop, hlt]
      exact ih _ s'
    | ran inv =>
      cases inv with
      | none =>
        simp only [runLoop, hlt]
        exact ih _ s'
      | some name =>
        have h := ih (fun k => clocks (k + 1)) s'
        simp only [runLoop, hlt]
        exact ⟨h.1, by rw [h.2]⟩

/-- C4.  The queue evolution and the sequence of invoked actions computed
by the run loop are the same under any two behaviors of the actions — in
particular a behavior under which some action raises and one under which
none does — because `task_to_run()` is wrapped in `try/except Exception`:
a raise is converted into a log line carrying the action's `__name__` and
the exception details, and the loop proceeds; so an action that raises
neither terminates the loop nor prevents subsequently-due tasks from
running in the same session. -/
theorem action_exceptions_isolated
    (behavior behavior' : String → Option ExnInfo) (n : Nat)
    (clocks : Nat → Int) (s : Scheduler) :
    (runLoop behavior clocks n s).1 = (runLoop behavior' clocks n s).1 ∧
    (runLoop behavior clocks n s).2.1 = (runLoop behavior' clocks n s).2.1 ∧
    (∀ name ex, behavior name = some ex →
      invokeGuarded behavior name =
        ["error running task " ++ name ++ ":\n" ++ "   " ++
          ex.type ++ ": " ++ ex.msg]) := by
  refine ⟨(runLoop_behavior_independent behavior behavior' n clocks s).1,
    (runLoop_behavior_independent behavior behavior' n clocks s).2, ?_⟩
  intro name ex hx
  simp [invokeGuarded, hx]

/-- A behavior under which the action named `boom` raises a `ValueError`
and all others return normally. -/
def behaviorBoom : String → Option ExnInfo :=
  fun name => if name = "boom" then some ⟨"ValueError", "bad input"⟩ else none

/-- The behavior under which every action returns normally. -/
def behaviorOk : String → Option ExnInfo :=
  fun _ => none

/-- A running scheduler with a due raising task ahead of a due healthy
task. -/
def boomSched : Scheduler :=
  { tasks := [⟨0, 1, "boom", none⟩, ⟨0, 2, "refresh", none⟩], lastId := 2,
    clockName := "clock", clockTick := 0, running := true, hasThread := true }

theorem action_exceptions_isolated_witness :
    (runLoop behaviorBoom (fun _ => 0) 3 boomSched).1 =
      (runLoop behaviorOk (fun _ => 0) 3 boomSched).1 ∧
    (runLoop behaviorBoom (fun _ => 0) 3 boomSched).2.1 =
      (runLoop behaviorOk (fun _ => 0) 3 boomSched).2.1 ∧
    invokeGuarded behaviorBoom "boom" =
      ["error running task " ++ "boom" ++ ":\n" ++ "   " ++
        "ValueError" ++ ": " ++ "bad input"] := by
  have h := action_exceptions_isolated behaviorBoom behaviorOk 3
    (fun _ => 0) boomSched
  exact ⟨h.1, h.2.1, h.2.2 "boom" ⟨"ValueError", "bad input"⟩ (by decide)⟩

/-- `Scheduler.stop` (scheduler.py lines 36-43): set `self.tasks` to the
empty container, clear `self._running`, and `self.thread.join()`.  On a
scheduler that was never started, `self.thread` was never assigned
(`start`, line 32, creates it), so the attribute access raises
`AttributeError`.  The join means the worker has exited when `stop`
returns; in this sequential embedding the returned state is the state
after the worker has stopped. -/
def Scheduler.stop (s : Scheduler) : Except String Scheduler :=
  if s.hasThread then
    Except.ok { s with tasks := [], running := false }
  else Except.error "AttributeError"

/-- `Scheduler.start` (scheduler.py lines 27-34): if not already running,
create the worker thread, set `self._running` and start the loop;
otherwise do nothing.  It accesses no possibly-missing attribute, so it
never raises. -/
def Scheduler.start (s : Scheduler) : Except String Scheduler :=
  Except.ok
    (if s.running then s else { s with running := true, hasThread := true })

/-- `Scheduler.pause` (scheduler.py lines 45-50): clear `self._running`.
Never raises. -/
def Scheduler.pause (s : Scheduler) : Except String Scheduler :=
  Except.ok { s with running := false }

/-- `Scheduler.resume` (scheduler.py lines 52-54): set `self._running`.
Never raises, on any state. -/
def Scheduler.resume (s : Scheduler) : Except String Scheduler :=
  Except.ok { s with running := true }

/-- `Scheduler.list_all_tasks` (scheduler.py lines 56-71): one formatted
tuple per queued task, in queue order. -/
def Scheduler.listAllTasks (s : Scheduler) :
    List (String × String × String × String) :=
  s.tasks.map fun t =>
    ("time = " ++ toString t.time, "id = " ++ toString t.id,
      "task = " ++ t.action,
      "frequency = " ++ (match t.freq with | some f => f | none => "None"))

/-- C5.  On a scheduler whose worker thread exists (any started — hence
any running — scheduler), `stop()` succeeds, empties the task queue (so
`list_all_tasks` returns the empty list), and clears the running flag;
after the join implied by `stop()` returning, any further loop passes see
`self._running` false and `break` at once, so no previously scheduled
action is ever invoked again (the loop invokes nothing and logs
nothing). -/
theorem stop_clears_and_halts (s : Scheduler) (hthr : s.hasThread = true) :
    ∃ s', s.stop = Except.ok s' ∧ s'.tasks = [] ∧ s'.listAllTasks = [] ∧
      s'.running = false ∧
      ∀ behavior clocks n, runLoop behavior clocks n s' = (s', [], []) := by
  refine ⟨{ s with tasks := [], running := false }, ?_, rfl, rfl, rfl, ?_⟩
  · unfold Scheduler.stop
    rw [hthr]
    rfl
  · intro behavior clocks n
    cases n with
    | zero => rfl
    | succ n => simp [runLoop, Scheduler.loopIter]

theorem stop_clears_and_halts_witness :
    ∃ s', dailySched.stop = Except.ok s' ∧ s'.tasks = [] ∧
      s'.listAllTasks = [] ∧ s'.running = false ∧
      ∀ behavior clocks n, runLoop behavior clocks n s' = (s', [], []) :=
  stop_clears_and_halts dailySched rfl

/-- `Scheduler.schedule_after` (scheduler.py lines 136-140): schedules at
`_time() + duration`, where `_time` is the module-level wall clock imported
at the top of scheduler.py (`from time import time as _time`) — not the
instance's injected `self._clock`.  The wall-clock reading at call time is
passed here as `wall`. -/
def Scheduler.scheduleAfter (s : Scheduler) (wall : Int) (action : String)
    (duration : Int) : Scheduler :=
  s.schedule action (wall + duration) none

/-- `Scheduler.schedule_now` (scheduler.py lines 133-134):
`return self.schedule_after(task_to_schedule, 0.0)`. -/
def Scheduler.scheduleNow (s : Scheduler) (wall : Int) (action : String) :
    Scheduler :=
  s.scheduleAfter wall action 0

/-- A scheduler constructed with an injected clock (so `self._clock` is
not the wall clock; its `__name__` is `"clock"`). -/
def injSched : Scheduler :=
  { tasks := [], lastId := 0, clockName := "clock", clockTick := 0,
    running := false, hasThread := false }

/-- C7, counterexample.  Take a scheduler with an injected clock whose
current reading is 0, at a moment when the module-level wall clock
`_time()` reads 1000.  `schedule_now` inserts the task at time 1000 (the
wall-clock reading), whereas `schedule(action, current_time(), none)` with
`current_time` the scheduler's own clock inserts it at time 0: the two are
different states, so the claimed equivalence relative to the scheduler's
clock is false — `schedule_now`/`schedule_after` always consult the
module-level `_time`, ignoring `self._clock`. -/
theorem schedule_now_counterexample :
    (injSched.scheduleNow 1000 "refresh").tasks.map Task.time = [1000] ∧
    (injSched.schedule "refresh" 0 none).tasks.map Task.time = [0] ∧
    injSched.scheduleNow 1000 "refresh" ≠
      injSched.schedule "refresh" 0 none := by
  exact ⟨by decide, by decide, by decide⟩

/-- C7, amended.  `schedule_after(action, d)` behaves exactly as
`schedule(action, T + d, none)` and `schedule_now(action)` exactly as
`schedule(action, T, none)`, where `T` is the reading of the module-level
wall clock `_time` at call time — for every scheduler, including one with
an injected clock, whose own clock plays no part in these two methods. -/
theorem schedule_now_after_amended (s : Scheduler) (wall : Int)
    (a : String) (d : Int) :
    s.scheduleAfter wall a d = s.schedule a (wall + d) none ∧
    s.scheduleNow wall a = s.schedule a wall none := by
  refine ⟨rfl, ?_⟩
  unfold Scheduler.scheduleNow Scheduler.scheduleAfter
  rw [add_zero]

/-- C8, counterexample.  `stop()` on a freshly constructed, never-started
scheduler raises `AttributeError`: `stop` executes `self.thread.join()`
(scheduler.py line 43) but `self.thread` is only assigned by `start`
(line 32), so this lifecycle misuse is not tolerated as a no-op. -/
theorem lifecycle_counterexample :
    Scheduler.init.stop = Except.error "AttributeError" := rfl

/-- The state of a never-started scheduler after `resume()`. -/
def resumedFresh : Scheduler :=
  { Scheduler.init with running := true }

/-- C8, amended.  `start()` on an already-running scheduler is a no-op,
and `pause()`/`resume()` never raise in any state; but `stop()` on a
never-started scheduler raises `AttributeError`, and `resume()` on a
never-started scheduler sets the running flag, so a subsequent `start()`
takes the already-running no-op branch and does not spawn the run loop
(no worker thread is ever created). -/
theorem lifecycle_amended :
    (∀ s : Scheduler, s.running = true → s.start = Except.ok s) ∧
    (∀ s : Scheduler, s.resume = Except.ok { s with running := true }) ∧
    (∀ s : Scheduler, s.pause = Except.ok { s with running := false }) ∧
    (Scheduler.init.resume = Except.ok resumedFresh ∧
      resumedFresh.start = Except.ok resumedFresh ∧
      resumedFresh.hasThread = false) ∧
    Scheduler.init.stop = Except.error "AttributeError" := by
  refine ⟨?_, fun s => rfl, fun s => rfl, ⟨rfl, rfl, rfl⟩, rfl⟩
  intro s h
  unfold Scheduler.start
  rw [h]
  rfl

theorem lifecycle_amended_witness :
    dailySched.start = Except.ok dailySched :=
  lifecycle_amended.1 dailySched rfl

/-!
Lock discipline.  The claims about the mutual-exclusion lock concern which
statements of scheduler.py run inside the `with self._lock` block (lines
88-110), so we embed each code path as its literal sequence of
queue-access, lock and invocation events and check the lock depth at each
event. -/

/-- An event of a code path: acquiring/releasing `self._lock`, an access
(read, append, pop, or rebuild) of `self.tasks`, or the invocation
`task_to_run()`. -/
inductive LockEv where
  | acquire
  | release
  | queueOp
  | invoke
deriving Repr, DecidableEq

/-- Events of `Scheduler.schedule` (scheduler.py lines 120-131), called
from any thread: the append of line 130 and the sorted rebuild of line
131.  No lock is acquired anywhere in `schedule`. -/
def scheduleEvents : List LockEv :=
  [LockEv.queueOp, LockEv.queueOp]

/-- Events of `Scheduler.list_all_tasks` (scheduler.py lines 56-71): the
iteration over `self.tasks` of line 68.  No lock is acquired. -/
def listAllTasksEvents : List LockEv :=
  [LockEv.queueOp]

/-- Events of the `with self._lock` block of `main_loop` (scheduler.py
lines 88-110): the peek `self.tasks[0]` (line 89) and, on the due path,
the `popleft` (line 99) and — for a recurring task — the re-insertion via
`self.schedule` (lines 101-108), all before the lock is released. -/
def lockedSectionEvents (due recurring : Bool) : List LockEv :=
  [LockEv.acquire, LockEv.queueOp] ++
  (if due then [LockEv.queueOp] ++ (if recurring then scheduleEvents else [])
    else []) ++
  [LockEv.release]

/-- Events of one full pass of the `main_loop` body with a non-empty
queue (scheduler.py lines 84-113): the emptiness test `if not self.tasks`
of line 84 (performed before the lock is taken), then the locked section,
then the invocation `task_to_run()` of line 113 (performed after the lock
is released). -/
def mainLoopIterEvents (due recurring : Bool) : List LockEv :=
  [LockEv.queueOp] ++ lockedSectionEvents due recurring ++ [LockEv.invoke]

/-- Every queue access in the event list happens at positive lock depth,
starting from the given depth. -/
def opsLocked : List LockEv → Nat → Bool
  | [], _ => true
  | LockEv.acquire :: r, d => opsLocked r (d + 1)
  | LockEv.release :: r, d => opsLocked r (d - 1)
  | LockEv.queueOp :: r, d => decide (0 < d) && opsLocked r d
  | LockEv.invoke :: r, d => opsLocked r d

/-- Every invocation in the event list happens at lock depth zero,
starting from the given depth. -/
def invokesUnlocked : List LockEv → Nat → Bool
  | [], _ => true
  | LockEv.acquire :: r, d => invokesUnlocked r (d + 1)
  | LockEv.release :: r, d => invokesUnlocked r (d - 1)
  | LockEv.queueOp :: r, d => invokesUnlocked r d
  | LockEv.invoke :: r, d => (d == 0) && invokesUnlocked r d

/-- C9, counterexample.  The queue accesses of `schedule` — the append of
line 130 and the sorted rebuild of line 131, executed by whatever thread
calls a `schedule*` method — happen with the lock never acquired, so the
claim that every queue insertion is performed while holding the lock is
false. -/
theorem schedule_unlocked_counterexample :
    opsLocked scheduleEvents 0 = false := rfl

/-- C9, amended.  Inside one pass of the run loop, the peek, the pop and
the recurring re-insertion are all performed under the single lock, and
the lock is released before `task_to_run()` is invoked (so an action that
itself calls `schedule*` cannot deadlock on it); but the loop's emptiness
test, every `schedule*` insertion issued from a caller thread, and
`list_all_tasks` access the queue without acquiring the lock at all. -/
theorem locking_amended :
    (∀ due recurring : Bool,
      opsLocked (lockedSectionEvents due recurring) 0 = true) ∧
    (∀ due recurring : Bool,
      invokesUnlocked (mainLoopIterEvents due recurring) 0 = true) ∧
    opsLocked scheduleEvents 0 = false ∧
    opsLocked listAllTasksEvents 0 = false ∧
    (∀ due recurring : Bool,
      opsLocked (mainLoopIterEvents due recurring) 0 = false) := by
  refine ⟨by decide, by decide, rfl, rfl, by decide⟩

theorem loopIter_not_due (s : Scheduler) (raw : Int) (h : Task)
    (rest : List Task) (hrun : s.running = true) (hq : s.tasks = h :: rest)
    (hlt : h.time > s.nowOf raw) :
    s.loopIter raw =
      ({ s with clockTick := s.clockTick + 1 }, IterOutcome.ran none) := by
  unfold Scheduler.loopIter
  rw [hrun, hq]
  simp [hlt]

theorem loopIter_due_outcome (s : Scheduler) (raw : Int) (h : Task)
    (rest : List Task) (hrun : s.running = true) (hq : s.tasks = h :: rest)
    (hdue : ¬ h.time > s.nowOf raw) :
    (s.loopIter raw).2 = IterOutcome.ran (some h.action) := by
  unfold Scheduler.loopIter
  rw [hrun, hq]
  simp [hdue]

theorem reschedule_clockTick (s : Scheduler) (a : String) (t : Int)
    (f : Option String) : (s.reschedule a t f).clockTick = s.clockTick := by
  unfold Scheduler.reschedule Scheduler.scheduleDailyNext
    Scheduler.scheduleWeeklyNext Scheduler.scheduleMonthlyNext
    Scheduler.schedule
  split_ifs <;> rfl

theorem loopIter_clockTick (s : Scheduler) (raw : Int)
    (hrun : s.running = true) (h : Task) (rest : List Task)
    (hq : s.tasks = h :: rest) :
    (s.loopIter raw).1.clockTick = s.clockTick + 1 := by
  unfold Scheduler.loopIter
  rw [hrun, hq]
  by_cases hdue : h.time > s.nowOf raw
  · simp [hdue]
  · simp [hdue, reschedule_clockTick]

theorem frozen_clock_eventually_due (raw : Int) (j : Nat) :
    ∀ (s : Scheduler) (h : Task) (rest : List Task),
      s.running = true → s.clockName ≠ "time" → s.tasks = h :: rest →
      h.time ≤ raw + s.clockTick + j →
      ∃ i, ((stepFrozen raw)^[i] s).tasks = h :: rest ∧
        (((stepFrozen raw)^[i] s).loopIter raw).2 =
          IterOutcome.ran (some h.action) := by
  induction j with
  | zero =>
    intro s h rest hrun hname hq hle
    refine ⟨0, hq, ?_⟩
    simp only [Function.iterate_zero, id]
    apply loopIter_due_outcome s raw h rest hrun hq
    unfold Scheduler.nowOf
    rw [if_pos hname]
    push_cast at hle
    omega
  | succ j ih =>
    intro s h rest hrun hname hq hle
    by_cases hdue : h.time > s.nowOf raw
    · have hstep : stepFrozen raw s = { s with clockTick := s.clockTick + 1 } := by
        unfold stepFrozen
        rw [loopIter_not_due s raw h rest hrun hq hdue]
      have hle' : h.time ≤
          raw + ({ s with clockTick := s.clockTick + 1 } : Scheduler).clockTick + j := by
        push_cast at hle ⊢
        omega
      obtain ⟨i, hi1, hi2⟩ :=
        ih { s with clockTick := s.clockTick + 1 } h rest hrun hname hq hle'
      refine ⟨i + 1, ?_, ?_⟩
      · rw [Function.iterate_succ_apply, hstep]
        exact hi1
      · rw [Function.iterate_succ_apply, hstep]
        exact hi2
    · refine ⟨0, hq, ?_⟩
      simp only [Function.iterate_zero, id]
      exact loopIter_due_outcome s raw h rest hrun hq hdue

/-- C10.  For a scheduler whose clock's `__name__` is not `"time"` (any
injected clock), the `clock` value of a loop pass is the clock's reading
plus `self._clock_tick` (lines 91-92), and `self._clock_tick` is
incremented by exactly one on every pass that sees a non-empty queue
(line 110, executed on both the due and the not-yet-due path) — it counts
completed non-empty-queue passes since `main_loop` reset it.  Hence even
under a frozen injected clock the observed time advances by one per pass,
and the head task becomes due and is popped after finitely many passes.
Only for a clock named `"time"` (the default wall clock) is `clock` the
bare reading (lines 93-94). -/
theorem injected_clock_ticks (s : Scheduler) (raw : Int)
    (hname : s.clockName ≠ "time") :
    s.nowOf raw = raw + s.clockTick ∧
    (∀ s' : Scheduler, s'.clockName = "time" → s'.nowOf raw = raw) ∧
    (s.running = true → ∀ h rest, s.tasks = h :: rest →
      (s.loopIter raw).1.clockTick = s.clockTick + 1 ∧
      ∃ i, ((stepFrozen raw)^[i] s).tasks = h :: rest ∧
        (((stepFrozen raw)^[i] s).loopIter raw).2 =
          IterOutcome.ran (some h.action)) := by
  refine ⟨?_, ?_, ?_⟩
  · unfold Scheduler.nowOf
    rw [if_pos hname]
  · intro s' h
    unfold Scheduler.nowOf
    rw [if_neg (by simp [h])]
  · intro hrun h rest hq
    refine ⟨loopIter_clockTick s raw hrun h rest hq, ?_⟩
    refine frozen_clock_eventually_due raw (h.time - raw - s.clockTick).toNat
      s h rest hrun hname hq ?_
    have := Int.self_le_toNat (h.time - raw - s.clockTick)
    omega

/-- A running scheduler with an injected clock (`__name__` equal to
`"datetime_to_time"`, as in the repository's tests) frozen at reading 0,
holding one task due at time 3. -/
def frozenSched : Scheduler :=
  { tasks := [⟨3, 1, "refresh", none⟩], lastId := 1,
    clockName := "datetime_to_time", clockTick := 0,
    running := true, hasThread := true }

theorem injected_clock_ticks_witness :
    frozenSched.nowOf 0 = 0 + frozenSched.clockTick ∧
    (frozenSched.loopIter 0).1.clockTick = frozenSched.clockTick + 1 ∧
    ∃ i, ((stepFrozen 0)^[i] frozenSched).tasks = [⟨3, 1, "refresh", none⟩] ∧
      (((stepFrozen 0)^[i] frozenSched).loopIter 0).2 =
        IterOutcome.ran (some "refresh") := by
  have h := injected_clock_ticks frozenSched 0 (by decide)
  have h3 := h.2.2 rfl ⟨3, 1, "refresh", none⟩ [] rfl
  exact ⟨h.1, h3.1, h3.2⟩

/-!
Dynamic time values.  `schedule` (scheduler.py lines 120-131) accepts any
Python object as `time_to_start`: a `datetime.datetime` is normalized with
`datetime_to_time` (lines 126-127), and every other value — valid number
or not — is appended as-is.  The module defines no `InvalidArgument` (nor
any validation); the only thing that can fail synchronously is the
`sorted` call of line 131, which raises `TypeError` as soon as it compares
a number with a non-number.  We embed the dynamically-typed values and the
fallible comparison. -/

/-- A Python value passed as `time_to_start`: a number (int/float unix
time), a `datetime.datetime` (identified by its `mktime` conversion), or
any other object such as a string. -/
inductive PyTime where
  | num (t : Int)
  | dt (mk : Int)
  | other (txt : String)
deriving Repr, DecidableEq

/-- Python `==` between two time values: values of different types are
unequal (without error); values of the same type compare by value. -/
def PyTime.eqB : PyTime → PyTime → Bool
  | PyTime.num a, PyTime.num b => a == b
  | PyTime.dt a, PyTime.dt b => a == b
  | PyTime.other a, PyTime.other b => a == b
  | _, _ => false

/-- Python `<` between two time values: numbers compare numerically,
two objects of the same orderable non-number type compare by their own
order, and comparing a number with a non-number raises `TypeError`. -/
def PyTime.ltB : PyTime → PyTime → Except String Bool
  | PyTime.num a, PyTime.num b => Except.ok (decide (a < b))
  | PyTime.dt a, PyTime.dt b => Except.ok (decide (a < b))
  | PyTime.other a, PyTime.other b => Except.ok (compare a b == Ordering.lt)
  | _, _ => Except.error "TypeError"

/-- Whether the stored time value is a number. -/
def PyTime.isNum : PyTime → Bool
  | PyTime.num _ => true
  | _ => false

/-- A queue entry with a dynamically-typed time. -/
structure DynTask where
  time : PyTime
  id : Nat
  action : String
  freq : Option String
deriving Repr, DecidableEq

/-- Python tuple comparison on the sort key `(time, id)`: `==` skips equal
leading components (never raising), then `<` decides — and may raise.
With pairwise-distinct ids the later tuple components are never
compared. -/
def dynKeyLt (a b : DynTask) : Except String Bool :=
  if a.time.eqB b.time then Except.ok (decide (a.id < b.id))
  else a.time.ltB b.time

/-- The non-strict comparison of the stable sort: `a` may sit before `b`
iff not `b < a`. -/
def dynKeyLe (a b : DynTask) : Except String Bool :=
  match dynKeyLt b a with
  | Except.error e => Except.error e
  | Except.ok lt => Except.ok (!lt)

def dynOrderedInsert (a : DynTask) :
    List DynTask → Except String (List DynTask)
  | [] => Except.ok [a]
  | b :: l =>
    match dynKeyLe a b with
    | Except.error e => Except.error e
    | Except.ok le =>
      if le then Except.ok (a :: b :: l)
      else
        match dynOrderedInsert a l with
        | Except.error e => Except.error e
        | Except.ok r => Except.ok (b :: r)

/-- Python's stable `sorted(self.tasks)` (scheduler.py line 131) with the
fallible element comparison: the first comparison between a number time
and a non-number time raises `TypeError`, which propagates to the
`schedule` caller. -/
def dynSorted : List DynTask → Except String (List DynTask)
  | [] => Except.ok []
  | b :: l =>
    match dynSorted l with
    | Except.error e => Except.error e
    | Except.ok l' => dynOrderedInsert b l'

/-- The queue-and-counter state of a scheduler, for the dynamically-typed
embedding of `schedule`. -/
structure DynSched where
  tasks : List DynTask
  lastId : Nat
deriving Repr, DecidableEq

/-- `Scheduler.schedule` (scheduler.py lines 120-131) on an arbitrary
time value: normalize a `datetime` with `datetime_to_time`, increment
`self._id`, append the tuple, rebuild the queue with `sorted`. -/
def scheduleDyn (s : DynSched) (action : String) (t : PyTime)
    (freq : Option String) : Except String DynSched :=
  let t' := match t with
    | PyTime.dt mk => PyTime.num mk
    | v => v
  match dynSorted (s.tasks ++ [⟨t', s.lastId + 1, action, freq⟩]) with
  | Except.error e => Except.error e
  | Except.ok ts => Except.ok ⟨ts, s.lastId + 1⟩

theorem PyTime.isNum_num (t : PyTime) (h : t.isNum = true) :
    ∃ k, t = PyTime.num k := by
  cases t with
  | num k => exact ⟨k, rfl⟩
  | dt k => simp [PyTime.isNum] at h
  | other k => simp [PyTime.isNum] at h

theorem dynKeyLe_ok_of_num (a b : DynTask) (ha : a.time.isNum = true)
    (hb : b.time.isNum = true) : ∃ r, dynKeyLe a b = Except.ok r := by
  obtain ⟨ka, hka⟩ := PyTime.isNum_num a.time ha
  obtain ⟨kb, hkb⟩ := PyTime.isNum_num b.time hb
  unfold dynKeyLe dynKeyLt
  rw [hka, hkb]
  unfold PyTime.eqB PyTime.ltB
  by_cases he : (kb == ka) = true
  · rw [if_pos he]
    exact ⟨_, rfl⟩
  · rw [if_neg he]
    exact ⟨_, rfl⟩

theorem dynOrderedInsert_ok_of_num (a : DynTask) (l : List DynTask)
    (ha : a.time.isNum = true) (hl : ∀ x ∈ l, x.time.isNum = true) :
    ∃ l', dynOrderedInsert a l = Except.ok l' := by
  induction l with
  | nil => exact ⟨[a], rfl⟩
  | cons b l ih =>
    have hb := hl b (List.mem_cons_self b l)
    obtain ⟨le, hle⟩ := dynKeyLe_ok_of_num a b ha hb
    obtain ⟨r, hr⟩ := ih (fun x hx => hl x (List.mem_cons_of_mem b hx))
    cases le with
    | true => exact ⟨a :: b :: l, by simp [dynOrderedInsert, hle]⟩
    | false => exact ⟨b :: r, by simp [dynOrderedInsert, hle, hr]⟩

theorem dynOrderedInsert_mem (a : DynTask) (l l' : List DynTask)
    (h : dynOrderedInsert a l = Except.ok l') :
    ∀ x ∈ l', x = a ∨ x ∈ l := by
  induction l generalizing l' with
  | nil =>
    simp only [dynOrderedInsert] at h
    cases h
    intro x hx
    rw [List.mem_singleton] at hx
    exact Or.inl hx
  | cons b l ih =>
    simp only [dynOrderedInsert] at h
    rcases hle : dynKeyLe a b with e | le <;> rw [hle] at h
    · cases h
    cases le with
    | true =>
      simp only [if_pos] at h
      cases h
      intro x hx
      rcases List.mem_cons.mp hx with hx | hx
      · exact Or.inl hx
      · exact Or.inr hx
    | false =>
      simp only [Bool.false_eq_true, if_false] at h
      rcases hr : dynOrderedInsert a l with e | r <;> rw [hr] at h
      · cases h
      cases h
      intro x hx
      rcases List.mem_cons.mp hx with hx | hx
      · exact Or.inr (hx ▸ List.mem_cons_self b l)
      · rcases ih r hr x hx with hx2 | hx2
        · exact Or.inl hx2
        · exact Or.inr (List.mem_cons_of_mem b hx2)

theorem dynSorted_mem (l l' : List DynTask)
    (h : dynSorted l = Except.ok l') : ∀ x ∈ l', x ∈ l := by
  induction l generalizing l' with
  | nil =>
    simp only [dynSorted] at h
    cases h
    intro x hx
    cases hx
  | cons c m ihm =>
    simp only [dynSorted] at h
    rcases hm : dynSorted m with e | m' <;> rw [hm] at h
    · cases h
    intro x hx
    rcases dynOrderedInsert_mem c m' l' h x hx with h1 | h1
    · exact h1 ▸ List.mem_cons_self c m
    · exact List.mem_cons_of_mem c (ihm m' hm x h1)

theorem dynSorted_ok_of_num (l : List DynTask) :
    (∀ x ∈ l, x.time.isNum = true) → ∃ l', dynSorted l = Except.ok l' := by
  induction l with
  | nil => exact fun _ => ⟨[], rfl⟩
  | cons b l ih =>
    intro hl
    have hb := hl b (List.mem_cons_self b l)
    have hl2 : ∀ x ∈ l, x.time.isNum = true :=
      fun x hx => hl x (List.mem_cons_of_mem b hx)
    obtain ⟨l', hsort⟩ := ih hl2
    have hmem : ∀ x ∈ l', x.time.isNum = true :=
      fun x hx => hl2 x (dynSorted_mem l l' hsort x hx)
    obtain ⟨r, hr⟩ := dynOrderedInsert_ok_of_num b l' hb hmem
    exact ⟨r, by simp [dynSorted, hsort, hr]⟩

/-- C6, counterexample.  Scheduling with a malformed time value — a
string, which cannot be normalized to the scheduler's numeric time — on an
empty queue succeeds: nothing is raised (in particular no
`InvalidArgument`, which does not exist in the module) and the malformed
value is inserted into the queue, to misbehave later (the run loop's
`time_to_run > clock` comparison on it raises `TypeError` outside any
`try`, killing the worker thread). -/
theorem malformed_time_counterexample :
    scheduleDyn ⟨[], 0⟩ "refresh" (PyTime.other "tomorrow") none =
      Except.ok ⟨[⟨PyTime.other "tomorrow", 1, "refresh", none⟩], 1⟩ := rfl

/-- C6, amended.  `schedule` with a numeric time value never fails when
the queue holds only numeric times, and a `datetime` value is normalized
to its unix time and behaves exactly like the corresponding number; but
there is no `InvalidArgument` and no synchronous validation of other
values: a non-numeric time is appended as-is — when the queue already
holds a numeric-time task the `sorted` rebuild raises `TypeError` at
scheduling time, and on an empty (or uniformly non-numeric) queue the
call silently succeeds, leaving the malformed value queued. -/
theorem schedule_validation_amended :
    (∀ (s : DynSched) (a : String) (t : Int) (f : Option String),
      (∀ x ∈ s.tasks, x.time.isNum = true) →
      ∃ s', scheduleDyn s a (PyTime.num t) f = Except.ok s') ∧
    (∀ (s : DynSched) (a : String) (mk : Int) (f : Option String),
      scheduleDyn s a (PyTime.dt mk) f = scheduleDyn s a (PyTime.num mk) f) ∧
    scheduleDyn ⟨[⟨PyTime.num 0, 1, "refresh", none⟩], 1⟩ "late"
      (PyTime.other "tomorrow") none = Except.error "TypeError" := by
  refine ⟨?_, fun s a mk f => rfl, rfl⟩
  intro s a t f hnum
  have hall : ∀ x ∈ s.tasks ++ [⟨PyTime.num t, s.lastId + 1, a, f⟩],
      x.time.isNum = true := by
    intro x hx
    rcases List.mem_append.mp hx with hx | hx
    · exact hnum x hx
    · rw [List.mem_singleton] at hx
      subst hx
      rfl
  obtain ⟨l', hl'⟩ := dynSorted_ok_of_num _ hall
  exact ⟨⟨l', s.lastId + 1⟩, by simp [scheduleDyn, hl']⟩

theorem schedule_validation_amended_witness :
    ∃ s', scheduleDyn ⟨[⟨PyTime.num 5, 1, "cacheRefresh", none⟩], 1⟩
      "cacheEvict" (PyTime.num 3) none = Except.ok s' := by
  refine schedule_validation_amended.1
    ⟨[⟨PyTime.num 5, 1, "cacheRefresh", none⟩], 1⟩ "cacheEvict" 3 none ?_
  intro x hx
  rw [List.mem_singleton] at hx
  subst hx
  rfl

end PydemicScheduler
